import Mathlib

/-!
Verification of the webcli process supervisor and log broadcast engine
(`launcher.go`, `webcli.go`).

The broadcast loop of `newProcess` is embedded as a step function on an
explicit process state, driven by a trace of environment events: a read
from the combined output pipe returning data, end-of-stream (`io.EOF`) or
another error; the observation of `ctx.Done()` at the top of the loop; and
the external cancellation call (`proc.cancel()`), which marks the run's
context as canceled.  Deliveries to subscriber callbacks are recorded as
explicit events carrying the chunk text and the `isTerminal` flag, exactly
the two arguments the Go code passes to each callback.
-/

namespace Webcli

/-- Outcome of one `combinedOutput.Read(data)` call in the broadcast loop
(`launcher.go` line 99).  `data s` is a successful read of the bytes `s`
with a nil error; `eof` is the `io.EOF` error; `fail m` is any other
error, whose `Error()` text is `m`. -/
inductive ReadResult where
  | data (s : String)
  | eof
  | fail (m : String)
deriving DecidableEq, Repr

/-- Whether the read outcome carries a non-nil error: this is the Go test
`err != nil`, which is what the loop passes to every callback as the
second argument and what makes the loop exit (`launcher.go` lines 100, 116,
121). -/
def ReadResult.isErr : ReadResult → Bool
  | .data _ => false
  | .eof => true
  | .fail _ => true

/-- Whether the read outcome sets `p.error`: the Go test
`err != nil && !errors.Is(err, io.EOF)` (`launcher.go` lines 101-103). -/
def ReadResult.setsError : ReadResult → Bool
  | .data _ => false
  | .eof => false
  | .fail _ => true

/-- The text the loop derives from the read outcome before line-break
replacement (`launcher.go` lines 104-107): the read bytes on success, and
`err.Error()` on any error.  `io.EOF.Error()` is the literal string
`"EOF"`. -/
def ReadResult.chunkText : ReadResult → String
  | .data s => s
  | .eof => "EOF"
  | .fail m => m

/-- The Go call `strings.ReplaceAll(text, "\n", "<br>")` (`launcher.go`
line 108).  Because the pattern is the single character `"\n"`,
replacing every non-overlapping occurrence is exactly the character-wise
replacement below (stated structurally so that it evaluates by
reduction). -/
def replaceLineBreaks (s : String) : String :=
  ⟨s.data.flatMap (fun c => if c = '\n' then "<br>".data else [c])⟩

/-- One environment event driving a run.  `cancelSignal` is the run's
`cancel` context function being invoked (by the `/cancel` handler or a
server shutdown); `ctxDone` is the broadcast loop observing `ctx.Done()`
at the top of an iteration (`launcher.go` lines 87-94); `read r` is the
loop completing a read with outcome `r` (lines 96-126).  The `t` argument
is the wall-clock instant at which the loop would exit, recorded into
`p.end` by the deferred function (line 77). -/
inductive Ev where
  | cancelSignal
  | ctxDone (t : Nat)
  | read (r : ReadResult) (t : Nat)
deriving DecidableEq, Repr

/-- One invocation of a subscriber callback: the Go code calls
`callback(text, err != nil)` for the subscriber registered under `sub`
(`launcher.go` lines 114-118). -/
structure Delivery where
  sub : String
  text : String
  isTerminal : Bool
deriving DecidableEq, Repr

/-- The `process` struct of `launcher.go` (lines 15-26).  `callbacks` is
the subscriber table, an association of subscriber id to a callback
(callbacks themselves are abstracted as opaque `Nat` handles, since their
behaviour is outside the run; deliveries to them are recorded as
`Delivery` events).  `ctxCanceled` is the state of the run's cancellable
context (`ctx` from `context.WithCancel`); in this program every
cancellation of that context yields `context.Canceled`, so
`errors.Is(ctx.Err(), context.Canceled)` is this flag.  `ended` records
that the broadcast goroutine has returned; `endT` is `p.end`, set by the
deferred function exactly when the goroutine exits. -/
structure ProcState where
  logs : String
  callbacks : List (String × Nat)
  command : String
  startT : Nat
  endT : Option Nat
  error : Bool
  canceled : Bool
  ctxCanceled : Bool
  ended : Bool
deriving DecidableEq, Repr

/-- The `Logs` accessor (`launcher.go` lines 28-30). -/
def ProcState.Logs (p : ProcState) : String := p.logs

/-- external status of a run, as the spec presents the flags of a run.

Modelled from the spec: the view templates that render a `view.LogEntry`
(its `Error` and `Canceled` flags plus the end timestamp) into a single
displayed status are not part of the sources under `src/`; per the spec's
state machine (one terminal status among Completed, Failed, Canceled) and
its error taxonomy (Canceled is "not an error"), a run still in its loop
is Running, a canceled run is Canceled, an erroring run is Failed, and
otherwise the run Completed. -/
inductive RunStatus where
  | running
  | completed
  | failed
  | canceled
deriving DecidableEq, Repr

/-- Status of a process state, per the mapping above. -/
def ProcState.status (p : ProcState) : RunStatus :=
  if p.ended = false then .running
  else if p.canceled then .canceled
  else if p.error then .failed
  else .completed

/-- One step of a run under an environment event, returning the new state
and the deliveries made during the step.  Events other than
`cancelSignal` are loop iterations and can only occur while the
goroutine is still running (`ended = false`); on an already-ended state
they are ignored.  The `read` branch follows `launcher.go` lines
96-126 in order: derive the text (the read bytes, or `err.Error()`),
set `p.error` on a non-EOF error, replace every line break by the
token `"<br>"`, append to `p.logs`, invoke every registered callback with
`(text, err != nil)`, and on an error exit the loop, setting `p.canceled`
when the context was canceled.  The `ctxDone` branch follows lines 87-94.
Exiting the loop sets `p.end` via the deferred function (line 77). -/
def step (st : ProcState) (e : Ev) : ProcState × List Delivery :=
  match e with
  | .cancelSignal => ({ st with ctxCanceled := true }, [])
  | .ctxDone t =>
      if st.ended then (st, [])
      else
        ({ st with canceled := st.canceled || st.ctxCanceled,
                   ended := true, endT := some t }, [])
  | .read r t =>
      if st.ended then (st, [])
      else
        let text := replaceLineBreaks r.chunkText
        let ds := st.callbacks.map (fun c => Delivery.mk c.1 text r.isErr)
        let st1 := { st with error := st.error || r.setsError,
                             logs := st.logs ++ text }
        if r.isErr then
          ({ st1 with canceled := st1.canceled || st1.ctxCanceled,
                      ended := true, endT := some t }, ds)
        else (st1, ds)

/-- Run a trace of environment events from a state, collecting all
deliveries in order. -/
def runLoop : ProcState → List Ev → ProcState × List Delivery
  | st, [] => (st, [])
  | st, e :: es =>
      let p := step st e
      let q := runLoop p.1 es
      (q.1, p.2 ++ q.2)

/-- The `Subscribe` method (`launcher.go` lines 32-37): registers the
callback under the id in the Go map `p.callbacks` (overwriting an entry
with the same id). -/
def subscribeTable (m : List (String × Nat)) (id : String) (cb : Nat) :
    List (String × Nat) :=
  m.filter (fun e => e.1 != id) ++ [(id, cb)]

/-- The `Unsubscribe` method (`launcher.go` lines 39-43):
`delete(p.callbacks, id)` removes the entry for `id`, if any. -/
def unsubscribeTable (m : List (String × Nat)) (id : String) :
    List (String × Nat) :=
  m.filter (fun e => e.1 != id)

/-- `Unsubscribe` applied to a whole process state. -/
def ProcState.unsubscribe (p : ProcState) (id : String) : ProcState :=
  { p with callbacks := unsubscribeTable p.callbacks id }

/-- `proc.cancel()` as invoked by the `/cancel` handler (`webcli.go` lines
360-362): it cancels the run's context and touches nothing else; the
process fields are only ever written by the broadcast goroutine. -/
def ProcState.cancelRun (p : ProcState) : ProcState :=
  { p with ctxCanceled := true }

/-- The argument-vector validation and rebuild at the head of `newProcess`
(`launcher.go` lines 45-53): an empty vector fails with the error
`"no command provided"` before any process is launched; otherwise the
first element is split on `"/"` and the remaining elements are appended
after the parts. -/
def newProcessArgv : List String → Except String (List String)
  | [] => .error "no command provided"
  | cmdName :: rest => .ok (cmdName.splitOn "/" ++ rest)

/-- The on/off conversion of the `/run` handler (`webcli.go` lines
496-502): a form value `"on"` becomes `"true"`, `"off"` becomes
`"false"`, anything else is kept. -/
def convertOnOff (v : String) : String :=
  if v = "on" then "true" else if v = "off" then "false" else v

/-- The argument vector built by the `/run` handler (`webcli.go` lines
490-505): the command name first, then, for every form key other than
`"command"` and every one of its values, one element
`--key=value` with the on/off conversion applied.  The Go form is a map;
its iteration is modelled by the list order of `form`. -/
def buildArgs (cmdName : String) (form : List (String × List String)) :
    List String :=
  cmdName ::
    (form.filter (fun kv => kv.1 != "command")).flatMap
      (fun kv => kv.2.map (fun v => "--" ++ kv.1 ++ "=" ++ convertOnOff v))

/-- A wall-clock instant at the precision the `/run` handler's id format
uses: Go's layout `"20060102-150405.999"` renders year, month, day, hour,
minute, second and the millisecond fraction. -/
structure GoTime where
  year : Nat
  month : Nat
  day : Nat
  hour : Nat
  minute : Nat
  second : Nat
  ms : Nat
deriving DecidableEq, Repr

/-- The character of a decimal digit. -/
def digitChar (d : Nat) : Char := Char.ofNat (48 + d)

/-- Go's `2006` layout verb: the year, four decimal digits (a calendar
year of a running server has four digits). -/
def pad4 (n : Nat) : String :=
  ⟨[digitChar (n / 1000 % 10), digitChar (n / 100 % 10),
    digitChar (n / 10 % 10), digitChar (n % 10)]⟩

/-- Go's `01`/`02`/`15`/`04`/`05` layout verbs: the field zero-padded to
two decimal digits (every such calendar field is below 100). -/
def pad2 (n : Nat) : String :=
  ⟨[digitChar (n / 10 % 10), digitChar (n % 10)]⟩

/-- Go's `.999` fractional-second verb at millisecond precision: prints
nothing when the fraction is zero, otherwise a dot followed by the
millisecond digits with trailing zeros removed. -/
def frac999 (ms : Nat) : String :=
  if ms = 0 then ""
  else if ms % 10 != 0 then
    ⟨['.', digitChar (ms / 100 % 10), digitChar (ms / 10 % 10),
      digitChar (ms % 10)]⟩
  else if (ms / 10) % 10 != 0 then
    ⟨['.', digitChar (ms / 100 % 10), digitChar (ms / 10 % 10)]⟩
  else ⟨['.', digitChar (ms / 100 % 10)]⟩

/-- `time.Now().Format("20060102-150405.999")` for a given instant. -/
def formatRunTime (t : GoTime) : String :=
  pad4 t.year ++ pad2 t.month ++ pad2 t.day ++ "-" ++
    pad2 t.hour ++ pad2 t.minute ++ pad2 t.second ++ frac999 t.ms

/-- `strings.Replace(s, ".", "-", 1)` over the characters: replace the
first dot only (exact for the single-character pattern `"."`). -/
def replaceFirstDotAux : List Char → List Char
  | [] => []
  | c :: cs => if c = '.' then '-' :: cs else c :: replaceFirstDotAux cs

/-- `strings.Replace(s, ".", "-", 1)`. -/
def replaceFirstDot (s : String) : String :=
  ⟨replaceFirstDotAux s.data⟩

/-- The run identifier generated by the `/run` handler (`webcli.go` line
506): the formatted current time with its first dot replaced by a dash.
It is a function of the wall-clock instant alone. -/
def runID (t : GoTime) : String :=
  replaceFirstDot (formatRunTime t)

/-- The `processes` map of `webcli.go` (line 268), and more generally a
Go map with string keys. -/
def Registry (α : Type) : Type := String → Option α

/-- The empty map. -/
def emptyRegistry {α : Type} : Registry α := fun _ => none

/-- Go map insertion `m[k] = v`: an existing entry under `k` is
replaced. -/
def mapInsert {α : Type} (k : String) (v : α) (m : Registry α) :
    Registry α :=
  fun k2 => if k2 = k then some v else m k2

/-- The process state as `newProcess` creates it (`launcher.go` lines
66-72): empty log, empty callback table, the command name and start time
recorded, all flags clear. -/
def initProc (cmdName : String) (startT : Nat) : ProcState :=
  { logs := "", callbacks := [], command := cmdName, startT := startT,
    endT := none, error := false, canceled := false, ctxCanceled := false,
    ended := false }

/-- The `/run` handler's start path (`webcli.go` lines 490-514): build the
id from the current time, create the process via `newProcess` and insert
it into the `processes` map; when `newProcess` fails (empty argument
vector, or the launch itself fails, modelled by the `launchOk` flag) the
handler returns the error before touching the map. -/
def startRun (reg : Registry ProcState) (t : GoTime) (startT : Nat)
    (args : List String) (launchOk : Bool) :
    Registry ProcState × Except String String :=
  match newProcessArgv args with
  | .error e => (reg, .error e)
  | .ok _ =>
      if launchOk then
        (mapInsert (runID t) (initProc (args.headD "") startT) reg,
          .ok (runID t))
      else (reg, .error "error launching instance")

/-! Helper lemmas about the broadcast loop. -/

theorem runLoop_nil (st : ProcState) : runLoop st [] = (st, []) := rfl

theorem runLoop_cons (st : ProcState) (e : Ev) (es : List Ev) :
    runLoop st (e :: es) =
      ((runLoop (step st e).1 es).1,
        (step st e).2 ++ (runLoop (step st e).1 es).2) := rfl

/-- After the goroutine has exited, a step can only be the external
cancel call, which flips the context flag and nothing else. -/
theorem step_of_ended (st : ProcState) (e : Ev) (h : st.ended = true) :
    ∃ c, step st e = ({ st with ctxCanceled := c }, []) := by
  obtain ⟨lg, cb, cm, sT, eT, er, ca, cc, en⟩ := st
  simp only at h
  subst h
  cases e with
  | cancelSignal => exact ⟨true, rfl⟩
  | ctxDone t => exact ⟨cc, rfl⟩
  | read r t => exact ⟨cc, rfl⟩

/-- After the goroutine has exited, a whole trace leaves every field but
the context flag unchanged and performs no delivery. -/
theorem runLoop_of_ended (st : ProcState) (es : List Ev)
    (h : st.ended = true) :
    ∃ c, runLoop st es = ({ st with ctxCanceled := c }, []) := by
  induction es generalizing st with
  | nil => exact ⟨st.ctxCanceled, rfl⟩
  | cons e es ih =>
      obtain ⟨c, hc⟩ := step_of_ended st e h
      obtain ⟨c2, hc2⟩ := ih { st with ctxCanceled := c } h
      refine ⟨c2, ?_⟩
      rw [runLoop_cons, hc]
      dsimp only
      rw [hc2]
      rfl

/-- A single step never shortens the log. -/
theorem step_logs_le (st : ProcState) (e : Ev) :
    st.logs.length ≤ (step st e).1.logs.length := by
  cases e with
  | cancelSignal => exact le_refl _
  | ctxDone t =>
      by_cases h : st.ended = true <;> simp [step, h]
  | read r t =>
      by_cases h : st.ended = true
      · simp [step, h]
      · simp only [step, h]
        by_cases he : r.isErr = true <;>
          simp [he, String.length_append]

/-- A trace never shortens the log. -/
theorem runLoop_logs_le (st : ProcState) (es : List Ev) :
    st.logs.length ≤ (runLoop st es).1.logs.length := by
  induction es generalizing st with
  | nil => exact le_refl _
  | cons e es ih =>
      rw [runLoop_cons]
      exact le_trans (step_logs_le st e) (ih (step st e).1)

/-- Splitting a trace. -/
theorem runLoop_append (st : ProcState) (es1 es2 : List Ev) :
    runLoop st (es1 ++ es2) =
      ((runLoop (runLoop st es1).1 es2).1,
        (runLoop st es1).2 ++ (runLoop (runLoop st es1).1 es2).2) := by
  induction es1 generalizing st with
  | nil => simp [runLoop_nil, runLoop_cons]
  | cons e es ih =>
      simp [runLoop_cons, ih, List.append_assoc]

/-- C1.  For every run, the cumulative log is monotone: along any trace,
the log after a longer prefix of events is at least as long as after a
shorter one; and once the run has reached a terminal state (the broadcast
goroutine exited), no further text is appended to the log and no further
delivery is made to any subscriber. -/
theorem log_monotone_and_frozen_after_terminal
    (st : ProcState) (es1 es2 : List Ev) :
    (runLoop st es1).1.logs.length ≤
        (runLoop st (es1 ++ es2)).1.logs.length
    ∧ (st.ended = true →
        (runLoop st es2).1.logs = st.logs ∧ (runLoop st es2).2 = []) := by
  constructor
  · rw [runLoop_append]
    exact runLoop_logs_le (runLoop st es1).1 es2
  · intro h
    obtain ⟨c, hc⟩ := runLoop_of_ended st es2 h
    rw [hc]
    exact ⟨rfl, rfl⟩

/-- The external cancel call only marks the run's context as canceled. -/
theorem step_cancelSignal (st : ProcState) :
    step st .cancelSignal = ({ st with ctxCanceled := true }, []) := rfl

/-- Observing `ctx.Done()` at the top of a live loop iteration exits the
loop without reading, appending or delivering anything; the canceled
flag is set exactly when the context was canceled. -/
theorem step_ctxDone (st : ProcState) (t : Nat) (hrun : st.ended = false) :
    step st (.ctxDone t) =
      ({ st with canceled := st.canceled || st.ctxCanceled,
                 ended := true, endT := some t }, []) := by
  simp [step, hrun]

/-- A successful read on a live loop iteration appends the line-break
normalized text and delivers it to every registered subscriber with
`isTerminal = false`. -/
theorem step_read_data (st : ProcState) (s : String) (t : Nat)
    (hrun : st.ended = false) :
    step st (.read (.data s) t) =
      ({ st with logs := st.logs ++ replaceLineBreaks s },
        st.callbacks.map
          (fun c => Delivery.mk c.1 (replaceLineBreaks s) false)) := by
  simp [step, hrun, ReadResult.isErr, ReadResult.setsError,
    ReadResult.chunkText]

/-- A read returning any error on a live loop iteration appends the
error's text (line breaks normalized), delivers it to every registered
subscriber with `isTerminal = true`, sets the error flag on a non-EOF
error, sets the canceled flag when the context was canceled, and exits
the loop. -/
theorem step_read_err (st : ProcState) (r : ReadResult) (t : Nat)
    (hrun : st.ended = false) (hterm : r.isErr = true) :
    step st (.read r t) =
      ({ st with error := st.error || r.setsError,
                 logs := st.logs ++ replaceLineBreaks r.chunkText,
                 canceled := st.canceled || st.ctxCanceled,
                 ended := true, endT := some t },
        st.callbacks.map
          (fun c => Delivery.mk c.1 (replaceLineBreaks r.chunkText) true)) := by
  simp [step, hrun, hterm]

/-- Counting, among the deliveries of one broadcast, those that a
predicate selecting a single subscriber id accepts: each registered id
is delivered to exactly as often as it occurs in the table, so once when
the table has no duplicate ids. -/
theorem deliv_filter_length (cbs : List (String × Nat)) (txt : String)
    (b : Bool) (id : String) (p : Delivery → Bool)
    (hp : ∀ s, p (Delivery.mk s txt b) = (s == id))
    (hnd : (cbs.map Prod.fst).Nodup) :
    ((cbs.map (fun c => Delivery.mk c.1 txt b)).filter p).length =
      if id ∈ cbs.map Prod.fst then 1 else 0 := by
  induction cbs with
  | nil => simp
  | cons c cs ih =>
      rw [List.map_cons, List.nodup_cons] at hnd
      obtain ⟨hni, hnd⟩ := hnd
      rw [List.map_cons, List.map_cons, List.filter_cons, hp c.1]
      by_cases h : c.1 = id
      · subst h
        have h0 : ((cs.map (fun c => Delivery.mk c.1 txt b)).filter p).length
            = if c.1 ∈ cs.map Prod.fst then 1 else 0 := ih hnd
        simp [hni] at h0 ⊢
        exact h0
      · have hne : (c.1 == id) = false := by
          simp [h]
        rw [hne]
        simp only [Bool.false_eq_true, if_false]
        rw [ih hnd]
        have hiff : (id ∈ c.1 :: cs.map Prod.fst) ↔ (id ∈ cs.map Prod.fst) := by
          constructor
          · intro hm
            rcases List.mem_cons.mp hm with h1 | h1
            · exact absurd h1.symm h
            · exact h1
          · exact fun hm => List.mem_cons_of_mem _ hm
        exact if_congr hiff.symm rfl rfl

/-- A concrete terminal state used to instantiate hypotheses. -/
def procEnded : ProcState :=
  { logs := "done<br>EOF", callbacks := [("s1", 0)], command := "c",
    startT := 0, endT := some 9, error := false, canceled := false,
    ctxCanceled := false, ended := true }

/-- A concrete live run with one subscriber, used as instantiation
input. -/
def procRunning : ProcState :=
  { logs := "out<br>", callbacks := [("s1", 0)], command := "c",
    startT := 0, endT := none, error := false, canceled := false,
    ctxCanceled := false, ended := false }

/-- C2, counterexample.  A run with subscriber `"s1"` registered from
before termination through the end is canceled and its loop observes
`ctx.Done()` at the top of an iteration: the run reaches the terminal
status Canceled, the subscriber is still registered, yet no delivery at
all — in particular no delivery with `isTerminal = true` — is ever made
to it, refuting that the terminal event is delivered exactly once to
every subscriber registered before termination. -/
theorem no_terminal_event_on_cancel_path :
    (runLoop procRunning [Ev.cancelSignal, Ev.ctxDone 7]).1.status =
        RunStatus.canceled
    ∧ (runLoop procRunning [Ev.cancelSignal, Ev.ctxDone 7]).1.callbacks =
        [("s1", 0)]
    ∧ (runLoop procRunning [Ev.cancelSignal, Ev.ctxDone 7]).2 = [] :=
  ⟨rfl, rfl, rfl⟩

/-- C2, amended.  When a live run terminates by processing a read with a
non-nil error (the only loop exit that broadcasts), every subscriber
registered in a duplicate-free table at that moment receives the
terminal event (`isTerminal = true`) exactly once, and receives no
delivery after it: over the whole remaining trace there is exactly one
delivery to that subscriber, the terminal one.  A run whose loop instead
exits at the `ctx.Done()` check broadcasts nothing. -/
theorem terminal_delivery_exactly_once
    (st : ProcState) (r : ReadResult) (t : Nat) (rest : List Ev)
    (id : String)
    (hrun : st.ended = false) (hterm : r.isErr = true)
    (hnd : (st.callbacks.map Prod.fst).Nodup)
    (hid : id ∈ st.callbacks.map Prod.fst) :
    (((runLoop st (Ev.read r t :: rest)).2.filter
        (fun d => d.sub == id && d.isTerminal)).length = 1)
    ∧ (((runLoop st (Ev.read r t :: rest)).2.filter
        (fun d => d.sub == id)).length = 1) := by
  rw [runLoop_cons, step_read_err st r t hrun hterm]
  dsimp only
  obtain ⟨c, hc⟩ := runLoop_of_ended
    { st with error := st.error || r.setsError,
              logs := st.logs ++ replaceLineBreaks r.chunkText,
              canceled := st.canceled || st.ctxCanceled,
              ended := true, endT := some t } rest rfl
  rw [hc]
  dsimp only
  rw [List.append_nil]
  constructor
  · rw [deliv_filter_length st.callbacks _ true id _ (fun s => by simp) hnd]
    simp [hid]
  · rw [deliv_filter_length st.callbacks _ true id _ (fun s => by simp) hnd]
    simp [hid]

/-- Witness for C2 (amended) at a concrete live run, an EOF read and the
subscriber `"s1"`. -/
theorem terminal_delivery_exactly_once_witness :
    (((runLoop procRunning [Ev.read .eof 3]).2.filter
        (fun d => d.sub == "s1" && d.isTerminal)).length = 1)
    ∧ (((runLoop procRunning [Ev.read .eof 3]).2.filter
        (fun d => d.sub == "s1")).length = 1) :=
  terminal_delivery_exactly_once procRunning .eof 3 [] "s1" rfl rfl
    (by decide) (by decide)

/-- C3, counterexample.  Cancel is invoked while the run is executing and
before any terminal read outcome is processed (the loop is blocked in a
read; the context is canceled, which kills the child and makes the
pending read return `io.EOF`): the run does end Canceled, but the text
`"EOF"` is appended to the log after the cancellation, so the log is not
exactly the output produced before cancellation. -/
theorem cancel_during_read_appends_text :
    procRunning.logs = "out<br>"
    ∧ (runLoop procRunning [Ev.cancelSignal, Ev.read .eof 7]).1.logs =
        "out<br>EOF"
    ∧ (runLoop procRunning [Ev.cancelSignal, Ev.read .eof 7]).1.status =
        RunStatus.canceled :=
  ⟨rfl, rfl, rfl⟩

/-- C3, amended.  If Cancel is invoked on a live run and the loop
observes the cancellation at the top of its next iteration (before
starting another read), the final status is Canceled and not Failed (the
error flag stays clear), the log is exactly the output produced before
cancellation, and nothing is delivered; if instead the cancellation
lands during a blocking read, the status is still Canceled but the final
read's error text (for example `"EOF"`) is appended to the log after the
cancellation. -/
theorem cancel_observed_at_loop_top
    (st : ProcState) (t : Nat) (rest : List Ev)
    (hrun : st.ended = false) (herr : st.error = false) :
    ((runLoop st (Ev.cancelSignal :: Ev.ctxDone t :: rest)).1.logs = st.logs)
    ∧ ((runLoop st (Ev.cancelSignal :: Ev.ctxDone t :: rest)).1.status =
        RunStatus.canceled)
    ∧ ((runLoop st (Ev.cancelSignal :: Ev.ctxDone t :: rest)).1.error = false)
    ∧ ((runLoop st (Ev.cancelSignal :: Ev.ctxDone t :: rest)).2 = []) := by
  rw [runLoop_cons, step_cancelSignal]
  dsimp only
  rw [runLoop_cons, step_ctxDone { st with ctxCanceled := true } t hrun]
  dsimp only
  obtain ⟨c, hc⟩ := runLoop_of_ended
    { st with ctxCanceled := true, canceled := st.canceled || true,
              ended := true, endT := some t } rest rfl
  rw [hc]
  refine ⟨rfl, ?_, ?_, rfl⟩
  · simp [ProcState.status]
  · exact herr

/-- Witness for C3 (amended) at a concrete live run. -/
theorem cancel_observed_at_loop_top_witness :
    ((runLoop procRunning [Ev.cancelSignal, Ev.ctxDone 7]).1.logs =
        procRunning.logs)
    ∧ ((runLoop procRunning [Ev.cancelSignal, Ev.ctxDone 7]).1.status =
        RunStatus.canceled)
    ∧ ((runLoop procRunning [Ev.cancelSignal, Ev.ctxDone 7]).1.error = false)
    ∧ ((runLoop procRunning [Ev.cancelSignal, Ev.ctxDone 7]).2 = []) :=
  cancel_observed_at_loop_top procRunning 7 [] rfl rfl

/-- Witness for C1 at a concrete terminal state and concrete traces. -/
theorem log_monotone_and_frozen_after_terminal_witness :
    (runLoop procEnded [Ev.ctxDone 1]).1.logs.length ≤
        (runLoop procEnded ([Ev.ctxDone 1] ++ [Ev.read .eof 2])).1.logs.length
    ∧ ((runLoop procEnded [Ev.read .eof 2]).1.logs = procEnded.logs
        ∧ (runLoop procEnded [Ev.read .eof 2]).2 = []) :=
  ⟨(log_monotone_and_frozen_after_terminal procEnded
      [Ev.ctxDone 1] [Ev.read .eof 2]).1,
    (log_monotone_and_frozen_after_terminal procEnded
      [Ev.ctxDone 1] [Ev.read .eof 2]).2 rfl⟩

/-- Deliveries of a non-terminal broadcast never pass a filter that
requires the terminal flag. -/
theorem deliv_filter_nonterminal (cbs : List (String × Nat)) (txt : String)
    (id : String) :
    ((cbs.map (fun c => Delivery.mk c.1 txt false)).filter
        (fun d => d.sub == id && d.isTerminal)).length = 0 := by
  induction cbs with
  | nil => rfl
  | cons c cs ih => simp [List.filter_cons, ih]

/-- A fresh run state with an initial subscriber table, as after
`newProcess` followed by `Subscribe` calls and before any read. -/
def procWithSubs (cbs : List (String × Nat)) : ProcState :=
  { logs := "", callbacks := cbs, command := "hello", startT := 0,
    endT := none, error := false, canceled := false, ctxCanceled := false,
    ended := false }

/-- C4, counterexample.  A run whose child writes exactly `"hello"` and a
newline and then ends cleanly: the log is not `"hello"` followed by the
line-break token and nothing else, because the loop also appends the
end-of-stream error text `"EOF"` (the Go code sets `text = err.Error()`
for every error, `io.EOF` included). -/
theorem scenario_a_log_has_eof_suffix :
    (runLoop (procWithSubs [("s1", 0)])
        [Ev.read (.data "hello\n") 1, Ev.read .eof 2]).1.Logs =
      "hello<br>" ++ "EOF"
    ∧ (runLoop (procWithSubs [("s1", 0)])
        [Ev.read (.data "hello\n") 1, Ev.read .eof 2]).1.Logs ≠
      "hello<br>" :=
  ⟨rfl, by decide⟩

/-- C4, amended.  For a run whose child writes exactly `"hello"` and a
newline and then ends cleanly, the final status is Completed, `Logs()`
returns `"hello"`, the line-break token, and then the end-of-stream
error text `"EOF"`, and each subscriber registered (without duplicates)
from before the output receives exactly one terminal delivery. -/
theorem scenario_a_completed
    (cbs : List (String × Nat)) (id : String)
    (hnd : (cbs.map Prod.fst).Nodup) (hid : id ∈ cbs.map Prod.fst) :
    ((runLoop (procWithSubs cbs)
        [Ev.read (.data "hello\n") 1, Ev.read .eof 2]).1.Logs =
      "hello<br>" ++ "EOF")
    ∧ ((runLoop (procWithSubs cbs)
        [Ev.read (.data "hello\n") 1, Ev.read .eof 2]).1.status =
      RunStatus.completed)
    ∧ (((runLoop (procWithSubs cbs)
        [Ev.read (.data "hello\n") 1, Ev.read .eof 2]).2.filter
          (fun d => d.sub == id && d.isTerminal)).length = 1) := by
  refine ⟨rfl, rfl, ?_⟩
  have hred : (runLoop (procWithSubs cbs)
      [Ev.read (.data "hello\n") 1, Ev.read .eof 2]).2 =
        cbs.map (fun c => Delivery.mk c.1 "hello<br>" false) ++
          (cbs.map (fun c => Delivery.mk c.1 "EOF" true) ++ []) := rfl
  rw [hred]
  simp only [List.append_nil, List.filter_append, List.length_append]
  rw [deliv_filter_nonterminal cbs "hello<br>" id]
  rw [deliv_filter_length cbs "EOF" true id _ (fun s => by simp) hnd]
  simp [hid]

/-- Witness for C4 (amended) with two subscribers. -/
theorem scenario_a_completed_witness :
    ((runLoop (procWithSubs [("s1", 0), ("s2", 1)])
        [Ev.read (.data "hello\n") 1, Ev.read .eof 2]).1.Logs =
      "hello<br>" ++ "EOF")
    ∧ ((runLoop (procWithSubs [("s1", 0), ("s2", 1)])
        [Ev.read (.data "hello\n") 1, Ev.read .eof 2]).1.status =
      RunStatus.completed)
    ∧ (((runLoop (procWithSubs [("s1", 0), ("s2", 1)])
        [Ev.read (.data "hello\n") 1, Ev.read .eof 2]).2.filter
          (fun d => d.sub == "s2" && d.isTerminal)).length = 1) :=
  scenario_a_completed [("s1", 0), ("s2", 1)] "s2" (by decide) (by decide)

/-- C7.  Whenever the loop's read returns an error — the end-of-stream of
a clean completion included — the text appended to the log and delivered
as the terminal chunk is exactly the error's message with line breaks
replaced by the token: a clean run's log ends in the literal `"EOF"`,
and a failing read's log ends in the error message. -/
theorem error_text_is_final_chunk (st : ProcState) (t : Nat) (m : String)
    (hrun : st.ended = false) :
    ((runLoop st [Ev.read .eof t]).1.logs = st.logs ++ "EOF")
    ∧ ((runLoop st [Ev.read .eof t]).2 =
        st.callbacks.map (fun c => Delivery.mk c.1 "EOF" true))
    ∧ ((runLoop st [Ev.read (.fail m) t]).1.logs =
        st.logs ++ replaceLineBreaks m)
    ∧ ((runLoop st [Ev.read (.fail m) t]).2 =
        st.callbacks.map (fun c => Delivery.mk c.1 (replaceLineBreaks m) true)) := by
  refine ⟨?_, ?_, ?_, ?_⟩
  · rw [runLoop_cons, step_read_err st .eof t hrun rfl]
    rfl
  · rw [runLoop_cons, step_read_err st .eof t hrun rfl]
    dsimp only
    rw [runLoop_nil]
    dsimp only
    rw [List.append_nil]
    rfl
  · rw [runLoop_cons, step_read_err st (.fail m) t hrun rfl]
    rfl
  · rw [runLoop_cons, step_read_err st (.fail m) t hrun rfl]
    dsimp only
    rw [runLoop_nil]
    dsimp only
    rw [List.append_nil]
    rfl

/-- Witness for C7 at a concrete live run and error message. -/
theorem error_text_is_final_chunk_witness :
    ((runLoop procRunning [Ev.read .eof 3]).1.logs =
        procRunning.logs ++ "EOF")
    ∧ ((runLoop procRunning [Ev.read .eof 3]).2 =
        procRunning.callbacks.map (fun c => Delivery.mk c.1 "EOF" true))
    ∧ ((runLoop procRunning [Ev.read (.fail "boom\nbad") 3]).1.logs =
        procRunning.logs ++ replaceLineBreaks "boom\nbad")
    ∧ ((runLoop procRunning [Ev.read (.fail "boom\nbad") 3]).2 =
        procRunning.callbacks.map
          (fun c => Delivery.mk c.1 (replaceLineBreaks "boom\nbad") true)) :=
  error_text_is_final_chunk procRunning 3 "boom\nbad" rfl

/-- C9.  Invoking Cancel on a run that already reached a terminal status
(its loop has exited) is a no-op for everything observable: whatever
events follow, the log, the status, and both timestamps are unchanged,
and nothing is delivered. -/
theorem cancel_after_terminal_noop (st : ProcState) (rest : List Ev)
    (h : st.ended = true) :
    ((runLoop st.cancelRun rest).1.logs = st.logs)
    ∧ ((runLoop st.cancelRun rest).1.status = st.status)
    ∧ ((runLoop st.cancelRun rest).1.startT = st.startT)
    ∧ ((runLoop st.cancelRun rest).1.endT = st.endT)
    ∧ ((runLoop st.cancelRun rest).2 = []) := by
  obtain ⟨c, hc⟩ := runLoop_of_ended st.cancelRun rest h
  rw [hc]
  refine ⟨rfl, ?_, rfl, rfl, rfl⟩
  simp [ProcState.status, ProcState.cancelRun]

/-- Witness for C9 at a concrete terminal run. -/
theorem cancel_after_terminal_noop_witness :
    ((runLoop procEnded.cancelRun [Ev.read .eof 3]).1.logs = procEnded.logs)
    ∧ ((runLoop procEnded.cancelRun [Ev.read .eof 3]).1.status =
        procEnded.status)
    ∧ ((runLoop procEnded.cancelRun [Ev.read .eof 3]).1.startT =
        procEnded.startT)
    ∧ ((runLoop procEnded.cancelRun [Ev.read .eof 3]).1.endT =
        procEnded.endT)
    ∧ ((runLoop procEnded.cancelRun [Ev.read .eof 3]).2 = []) :=
  cancel_after_terminal_noop procEnded [Ev.read .eof 3] rfl

/-- C10.  `Unsubscribe(id)` removes the entry for `id` if present and
leaves the table unchanged otherwise; composed with itself it equals a
single `Unsubscribe`, and for an id never subscribed it is the
identity. -/
theorem unsubscribe_idempotent (st : ProcState) (id : String) :
    ((st.unsubscribe id).unsubscribe id = st.unsubscribe id)
    ∧ (∀ cb, (id, cb) ∉ (st.unsubscribe id).callbacks)
    ∧ (id ∉ st.callbacks.map Prod.fst → st.unsubscribe id = st) := by
  refine ⟨?_, ?_, ?_⟩
  · have h : unsubscribeTable (unsubscribeTable st.callbacks id) id =
        unsubscribeTable st.callbacks id := by
      rw [unsubscribeTable, unsubscribeTable, List.filter_filter]
      exact List.filter_congr (fun a _ => by simp)
    show ({ st with callbacks :=
        unsubscribeTable (unsubscribeTable st.callbacks id) id } : ProcState) = _
    rw [h]
    rfl
  · intro cb hmem
    rw [ProcState.unsubscribe] at hmem
    dsimp only at hmem
    rw [unsubscribeTable, List.mem_filter] at hmem
    simp at hmem
  · intro hid
    have h : unsubscribeTable st.callbacks id = st.callbacks := by
      rw [unsubscribeTable]
      apply List.filter_eq_self.mpr
      intro a ha
      have : a.1 ≠ id := by
        intro hcontra
        exact hid (hcontra ▸ List.mem_map_of_mem Prod.fst ha)
      simp [this]
    show ({ st with callbacks := unsubscribeTable st.callbacks id } :
        ProcState) = st
    rw [h]

/-- Witness for C10 at a concrete run and an id never subscribed. -/
theorem unsubscribe_idempotent_witness :
    ((procRunning.unsubscribe "zz").unsubscribe "zz" =
        procRunning.unsubscribe "zz")
    ∧ (("zz", 0) ∉ (procRunning.unsubscribe "zz").callbacks)
    ∧ (procRunning.unsubscribe "zz" = procRunning) :=
  ⟨(unsubscribe_idempotent procRunning "zz").1,
    (unsubscribe_idempotent procRunning "zz").2.1 0,
    (unsubscribe_idempotent procRunning "zz").2.2 (by decide)⟩

/-- C5.  The run identifier is a function of the wall-clock instant at
millisecond precision only, so two distinct Start operations executing
within the same millisecond generate the same identifier, and the second
insertion replaces the first Run in the registry: at the concrete
instant 2024-01-01 12:00:00.500 the first started Run (command `"a"`) is
no longer in the registry after the second Start (command `"b"`). -/
theorem timestamp_collision_replaces_run :
    runID ⟨2024, 1, 1, 12, 0, 0, 500⟩ = "20240101-120000-5"
    ∧ ((startRun emptyRegistry ⟨2024, 1, 1, 12, 0, 0, 500⟩ 0 ["a"] true).1
        "20240101-120000-5" = some (initProc "a" 0))
    ∧ ((startRun
          (startRun emptyRegistry ⟨2024, 1, 1, 12, 0, 0, 500⟩ 0 ["a"] true).1
          ⟨2024, 1, 1, 12, 0, 0, 500⟩ 1 ["b"] true).1
        "20240101-120000-5" = some (initProc "b" 1)) :=
  ⟨rfl, rfl, rfl⟩

/-- C6.  Starting with an empty argument vector fails synchronously with
the `"no command provided"` error before any process is created: the
handler returns the error and the registry mapping is returned
unchanged, whatever its prior contents and whether a launch would have
succeeded. -/
theorem empty_args_rejected (reg : Registry ProcState) (t : GoTime)
    (sT : Nat) (lOk : Bool) :
    newProcessArgv [] = Except.error "no command provided"
    ∧ startRun reg t sT [] lOk = (reg, Except.error "no command provided") :=
  ⟨rfl, rfl⟩

/-- C8.  The argument vector built by the `/run` handler has the command
path as its first element, contains one `--name=value` element for every
value of every submitted field other than `"command"` (with `"on"`
translated to `"true"` and `"off"` to `"false"`), and has exactly one
element per such value plus the leading command path. -/
theorem build_args_encoding (cmd : String)
    (form : List (String × List String)) :
    ((buildArgs cmd form).head? = some cmd)
    ∧ (∀ k vs v, (k, vs) ∈ form → k ≠ "command" → v ∈ vs →
        ("--" ++ k ++ "=" ++ convertOnOff v) ∈ buildArgs cmd form)
    ∧ ((buildArgs cmd form).length =
        1 + ((form.filter (fun kv => kv.1 != "command")).map
              (fun kv => kv.2.length)).sum) := by
  refine ⟨rfl, ?_, ?_⟩
  · intro k vs v hkv hk hv
    apply List.mem_cons_of_mem
    rw [List.mem_flatMap]
    refine ⟨(k, vs), ?_, ?_⟩
    · rw [List.mem_filter]
      exact ⟨hkv, by simp [hk]⟩
    · rw [List.mem_map]
      exact ⟨v, hv, rfl⟩
  · rw [buildArgs, List.length_cons, List.length_flatMap]
    simp [Function.comp_def, List.length_map, Nat.add_comm]

/-- Witness for C8 at a concrete form submission. -/
theorem build_args_encoding_witness :
    ((buildArgs "foo/bar" [("command", ["foo/bar"]), ("a", ["on"])]).head? =
        some "foo/bar")
    ∧ (("--" ++ "a" ++ "=" ++ convertOnOff "on") ∈
        buildArgs "foo/bar" [("command", ["foo/bar"]), ("a", ["on"])])
    ∧ ((buildArgs "foo/bar" [("command", ["foo/bar"]), ("a", ["on"])]).length =
        1 + (([("command", ["foo/bar"]), ("a", ["on"])].filter
              (fun kv => kv.1 != "command")).map
                (fun kv => kv.2.length)).sum) :=
  ⟨(build_args_encoding "foo/bar" _).1,
    (build_args_encoding "foo/bar" _).2.1 "a" ["on"] "on" (by decide)
      (by decide) (by decide),
    (build_args_encoding "foo/bar" _).2.2⟩

end Webcli
